import Mathlib

/-!
Verification of the Home Assistant MCP server (TypeScript sources:
the tool-registry file and `ha-client.ts`) against its natural-language
specification.

The embedding translates the handler bodies into pure Lean functions.
JavaScript values that flow through the handlers are modelled by `JsVal`
(with JS truthiness); JS built-ins that the handlers use
(`Array.prototype.slice`, `String.prototype.startsWith`,
`String.prototype.includes`, `String.prototype.split`, `Object.assign`,
property assignment on a plain object) are modelled by the `js*` helper
functions below, each following the ECMAScript behaviour for the argument
shapes that actually occur in the source (integer indices, non-empty
string separators, string-keyed records). Numbers are modelled as `Int`
(the handlers only do integer arithmetic on them). Upstream HTTP traffic
is modelled by explicit `ApiCall` values recorded in each handler result.
-/

/-- A JavaScript runtime value, as far as the handlers inspect one. -/
inductive JsVal where
  | str (s : String)
  | num (n : Int)
  | bool (b : Bool)
  | null
  | arr (elems : List JsVal)
  | obj (fields : List (String × JsVal))

/-- JS truthiness: `""`, `0`, `false`, `null`/`undefined` are falsy;
arrays and objects are always truthy. -/
def jsTruthy : JsVal → Bool
  | .str s => !(s == "")
  | .num n => !(n == 0)
  | .bool b => b
  | .null => false
  | .arr _ => true
  | .obj _ => true

/-- `xs.slice(0, e)` for an integer `e`: a negative end counts from the
end of the array (`max(len + e, 0)`), a non-negative end is clamped to
the length. -/
def jsSliceTo (e : Int) (xs : List α) : List α :=
  if e < 0 then xs.take ((xs.length : Int) + e).toNat else xs.take e.toNat

/-- `xs.slice(s)` for an integer `s`: a negative start counts from the
end of the array (`max(len + s, 0)`), a non-negative start is clamped to
the length. -/
def jsSliceFrom (s : Int) (xs : List α) : List α :=
  if s < 0 then xs.drop ((xs.length : Int) + s).toNat else xs.drop s.toNat

/-- `s.startsWith(p)` on strings. -/
def jsStartsWith (s p : String) : Bool :=
  p.data.isPrefixOf s.data

/-- Does `pat` occur as a contiguous run somewhere in the list? -/
def containsRun (pat : List Char) : List Char → Bool
  | [] => pat.isPrefixOf []
  | c :: rest => pat.isPrefixOf (c :: rest) || containsRun pat rest

/-- `s.includes(p)` on strings. -/
def jsIncludes (s p : String) : Bool :=
  containsRun p.data s.data

/-- Split a character list at every newline character; the only
`String.prototype.split` call in the source is `logs.split("\n")`, a
single-character separator. -/
def splitLinesChars : List Char → List (List Char)
  | [] => [[]]
  | c :: rest =>
      if c = '\n' then [] :: splitLinesChars rest
      else
        match splitLinesChars rest with
        | [] => [[c]]
        | h :: t => (c :: h) :: t

/-- `s.split("\n")`. -/
def jsSplit (s : String) : List String :=
  (splitLinesChars s.data).map String.mk

/-- The single-quote character, used in several handler message strings. -/
def squote : String := String.singleton (Char.ofNat 39)

/-- One upstream HTTP request issued through the client adapter:
method, path (relative to the API base) and optional JSON body, the body
being a string-keyed record as every body in the source is. -/
structure ApiCall where
  method : String
  path : String
  body : Option (List (String × JsVal))

/-- What a handler produces: the upstream calls it issued, in order, and
the text block it returns to the MCP caller. -/
structure HandlerResult where
  calls : List ApiCall
  text : String

/-! ### Tool 1: `ha_get_entities` -/

/-- One element of the `/states` response as the handler reads it. -/
structure EntityState where
  entity_id : String
  state : String
  attributes : List (String × JsVal)

/-- String interpolation `${v}` of a JsVal (ECMAScript ToString on the
value shapes `JsVal` covers). -/
def jsDisplay : JsVal → String
  | .str s => s
  | .num n => toString n
  | .bool true => "true"
  | .bool false => "false"
  | .null => "null"
  | .arr elems => String.intercalate "," (elems.attach.map (fun e => jsDisplay e.1))
  | .obj _ => "[object Object]"
decreasing_by
  have h1 := List.sizeOf_lt_of_mem e.2
  simp only [JsVal.arr.sizeOf_spec]
  omega

/-- `attributes.friendly_name || entity_id` followed by interpolation. -/
def displayName (s : EntityState) : String :=
  match List.lookup "friendly_name" s.attributes with
  | some v => if jsTruthy v then jsDisplay v else s.entity_id
  | none => s.entity_id

/-- Lines 48–53: `filtered` — the state list, filtered to ids starting
with `domain + "."` when a truthy domain argument was given. -/
def filteredStates (states : List EntityState) (domain : Option String) :
    List EntityState :=
  match domain with
  | none => states
  | some d =>
      if d = "" then states
      else states.filter (fun s => jsStartsWith s.entity_id (d ++ "."))

/-- Line 55: `limited = filtered.slice(0, limit)`. -/
def limitedStates (states : List EntityState) (domain : Option String)
    (limit : Int) : List EntityState :=
  jsSliceTo limit (filteredStates states domain)

/-- Lines 56–59: one formatted entity line. -/
def entityLine (s : EntityState) : String :=
  s.entity_id ++ " — " ++ s.state ++ " (" ++ displayName s ++ ")"

/-- Lines 56–59: `lines`. -/
def haGetEntitiesLines (states : List EntityState) (domain : Option String)
    (limit : Int) : List String :=
  (limitedStates states domain limit).map entityLine

/-- The count interpolated into the header (lines 61–63):
`filtered.length` when a truthy domain was given, else `states.length`. -/
def haGetEntitiesHeaderCount (states : List EntityState)
    (domain : Option String) : Nat :=
  match domain with
  | none => states.length
  | some d =>
      if d = "" then states.length
      else (filteredStates states (some d)).length

/-- Lines 61–63: the header string. -/
def haGetEntitiesHeader (states : List EntityState) (domain : Option String) :
    String :=
  match domain with
  | none => "Found " ++ toString states.length ++ " total entities"
  | some d =>
      if d = "" then "Found " ++ toString states.length ++ " total entities"
      else
        "Found " ++ toString (filteredStates states (some d)).length ++ " "
          ++ d ++ " entities"

/-- Lines 64–67: the `(showing first N)` annotation, present exactly when
`limited.length < filtered.length`, and displaying `limited.length`. -/
def haGetEntitiesShowing (states : List EntityState) (domain : Option String)
    (limit : Int) : String :=
  if (limitedStates states domain limit).length
      < (filteredStates states domain).length then
    " (showing first "
      ++ toString (limitedStates states domain limit).length ++ ")"
  else ""

/-- Line 73: the full returned text block. -/
def haGetEntitiesText (states : List EntityState) (domain : Option String)
    (limit : Int) : String :=
  haGetEntitiesHeader states domain ++ haGetEntitiesShowing states domain limit
    ++ ":\n\n" ++ String.intercalate "\n" (haGetEntitiesLines states domain limit)

/-- The domain prefix of an entity id: everything before the first `.`. -/
def entityDomain (id : String) : String :=
  String.mk (id.data.takeWhile (fun c => c != '.'))

/-! ### Tool 3: `ha_call_service` -/

/-- The optional `target` argument: three optional fields, each a string
or an array of strings at runtime (zod union), carried as `JsVal`. -/
structure ServiceTarget where
  entity_id : Option JsVal := none
  area_id : Option JsVal := none
  device_id : Option JsVal := none

/-- Property assignment `m[k] = v` on a plain JS object modelled as an
insertion-ordered association list: an existing key is updated in place,
a new key is appended. -/
def setKey (m : List (String × JsVal)) (k : String) (v : JsVal) :
    List (String × JsVal) :=
  if m.any (fun p => p.1 == k) then
    m.map (fun p => if p.1 == k then (k, v) else p)
  else m ++ [(k, v)]

/-- One `if (target.f) body.f = target.f;` step (lines 148–150): the key
is written only when the field is present and truthy. -/
def addIfTruthy (m : List (String × JsVal)) (k : String) (v? : Option JsVal) :
    List (String × JsVal) :=
  match v? with
  | some v => if jsTruthy v then setKey m k v else m
  | none => m

/-- Lines 146–151: the body after copying the truthy target fields. -/
def bodyFromTarget (target : Option ServiceTarget) : List (String × JsVal) :=
  match target with
  | none => []
  | some t =>
      addIfTruthy
        (addIfTruthy (addIfTruthy [] "entity_id" t.entity_id)
          "area_id" t.area_id)
        "device_id" t.device_id

/-- `Object.assign(body, data)` (line 153): copy every own entry of
`data` into `body` in order, overwriting existing keys. -/
def objectAssign (m : List (String × JsVal)) (d : List (String × JsVal)) :
    List (String × JsVal) :=
  d.foldl (fun acc p => setKey acc p.1 p.2) m

/-- Lines 146–154: the merged service-call body. -/
def serviceBody (target : Option ServiceTarget)
    (data : Option (List (String × JsVal))) : List (String × JsVal) :=
  match data with
  | some d => objectAssign (bodyFromTarget target) d
  | none => bodyFromTarget target

/-- Lines 156–159: the upstream request issued by `ha_call_service`; a
body with no keys is sent as `undefined` (no body). -/
def haCallServiceRequest (domain service : String)
    (target : Option ServiceTarget)
    (data : Option (List (String × JsVal))) : ApiCall :=
  { method := "POST"
    path := "/services/" ++ domain ++ "/" ++ service
    body :=
      if (serviceBody target data).length > 0 then some (serviceBody target data)
      else none }

/-- The field of `target` that a given body key would be copied from. -/
def targetField (t : ServiceTarget) (k : String) : Option JsVal :=
  if k = "entity_id" then t.entity_id
  else if k = "area_id" then t.area_id
  else if k = "device_id" then t.device_id
  else none

/-! ### Tool 8: `ha_restart` -/

/-- Line 323. -/
def restartCancelText : String :=
  "Restart cancelled. Set confirm=true to proceed. Consider running `ha core check` first to validate configuration."

/-- Line 337. -/
def restartInitiatedText : String :=
  "Home Assistant restart initiated. It will be unavailable briefly. Check logs after restart with ha_get_logs."

/-- Lines 317–341: the `ha_restart` handler. -/
def haRestart (confirm : Bool) : HandlerResult :=
  if !confirm then { calls := [], text := restartCancelText }
  else
    { calls := [{ method := "POST", path := "/services/homeassistant/restart", body := none }]
      text := restartInitiatedText }

/-! ### Tool 9: `ha_reload_config` -/

/-- Lines 346–364: the static reload table, in declaration order. -/
def RELOAD_MAP : List (String × String) :=
  [("automation", "automation/reload"),
   ("script", "script/reload"),
   ("scene", "scene/reload"),
   ("group", "group/reload"),
   ("input_boolean", "input_boolean/reload"),
   ("input_number", "input_number/reload"),
   ("input_select", "input_select/reload"),
   ("input_datetime", "input_datetime/reload"),
   ("input_text", "input_text/reload"),
   ("input_button", "input_button/reload"),
   ("timer", "timer/reload"),
   ("counter", "counter/reload"),
   ("schedule", "schedule/reload"),
   ("zone", "zone/reload"),
   ("template", "template/reload"),
   ("person", "person/reload"),
   ("core", "homeassistant/reload_core_config")]

/-- `Object.keys(RELOAD_MAP).join(", ")`. -/
def reloadKeysJoined : String :=
  String.intercalate ", " (RELOAD_MAP.map Prod.fst)

/-- Line 395: the success confirmation text. -/
def reloadSuccessText (domain : String) : String :=
  "Reloaded " ++ squote ++ domain ++ squote ++ " configuration successfully."

/-- Line 383: the handled unknown-domain text, listing the valid keys. -/
def reloadUnknownText (domain : String) : String :=
  "Unknown domain " ++ squote ++ domain ++ squote ++ ". Supported: "
    ++ reloadKeysJoined

/-- The property names every plain object literal inherits from
`Object.prototype`, each bound to a truthy value (a built-in function,
or — for `__proto__` — the prototype object itself, also truthy). -/
def objectPrototypeKeys : List String :=
  ["constructor", "hasOwnProperty", "isPrototypeOf", "propertyIsEnumerable",
   "toLocaleString", "toString", "valueOf", "__defineGetter__",
   "__defineSetter__", "__lookupGetter__", "__lookupSetter__", "__proto__"]

/-- The outcome of JS bracket access on the `RELOAD_MAP` object literal:
an own entry (a string endpoint), a member inherited from
`Object.prototype` via the prototype chain, or `undefined`. -/
inductive PropAccess where
  | ownString (endpoint : String)
  | inherited (name : String)
  | undefinedProp

/-- `RELOAD_MAP[domain]` (line 377): bracket access finds own keys
first, then walks the prototype chain; only a name found in neither
place yields `undefined`. -/
def reloadMapAccess (domain : String) : PropAccess :=
  match List.lookup domain RELOAD_MAP with
  | some endpoint => .ownString endpoint
  | none =>
      if domain ∈ objectPrototypeKeys then .inherited domain
      else .undefinedProp

/-- The string interpolation of an inherited `Object.prototype` member
into the URL template at line 389. Its exact text is engine-dependent
(V8 renders the built-in functions as a function source string and
`__proto__` as an object tag); no theorem below depends on this text,
only on the fact that a POST is issued at all. -/
def inheritedDisplay (name : String) : String :=
  "[inherited Object.prototype member " ++ name ++ "]"

/-- Lines 376–399: the `ha_reload_config` handler. `if (!endpoint)`
takes the unknown-domain branch only when the access yields `undefined`
(or an own empty-string endpoint, which the table never contains); a
truthy inherited member passes the guard and is posted upstream. -/
def haReloadConfig (domain : String) : HandlerResult :=
  match reloadMapAccess domain with
  | .undefinedProp => { calls := [], text := reloadUnknownText domain }
  | .ownString endpoint =>
      if endpoint = "" then { calls := [], text := reloadUnknownText domain }
      else
        { calls := [{ method := "POST", path := "/services/" ++ endpoint
                      body := none }]
          text := reloadSuccessText domain }
  | .inherited name =>
      { calls := [{ method := "POST"
                    path := "/services/" ++ inheritedDisplay name
                    body := none }]
        text := reloadSuccessText domain }

/-! ### Tool 10: `ha_get_logs` -/

/-- Lines 421–422: split the raw log text on newlines and keep
`allLines.slice(-lines)`. -/
def haGetLogsSelected (logs : String) (lines : Int) : List String :=
  jsSliceFrom (-lines) (jsSplit logs)

/-- Line 428: the returned text block. -/
def haGetLogsText (logs : String) (lines : Int) : String :=
  "Home Assistant logs (last " ++ toString lines ++ " lines):\n\n"
    ++ String.intercalate "\n" (haGetLogsSelected logs lines)

/-! ### Tool 11: `ha_get_history` -/

/-- Line 450: `start = new Date(now.getTime() - hours * 60 * 60 * 1000)`,
on epoch milliseconds. -/
def haGetHistoryStartMillis (nowMillis : Int) (hours : Int) : Int :=
  nowMillis - hours * 60 * 60 * 1000

/-! ### Tool 13: `ha_render_template` -/

/-- Line 537: the fixed framing prepended to the rendered text. -/
def templateResultPrefix : String := "Template result:\n\n"

/-- Lines 527–541: the text returned for an upstream rendering `result`;
the rendered text is embedded with no transformation. -/
def haRenderTemplateText (result : String) : String :=
  templateResultPrefix ++ result

/-! ### HTTP client adapter (`ha-client.ts`) -/

/-- An upstream HTTP response as the adapter inspects it: status code,
the `content-type` header (absent modelled as `none`), the body read as
text (`Except.error` models a failing `response.text()`), and the body
decoded as JSON (for responses whose JSON decode succeeds, the only ones
the success path of the source handles without throwing). -/
structure UpstreamResponse where
  status : Nat
  contentType : Option String
  bodyText : Except Unit String
  bodyJson : JsVal

/-- `response.ok`: status in the 200–299 range. -/
def responseOk (r : UpstreamResponse) : Bool :=
  decide (200 ≤ r.status) && decide (r.status ≤ 299)

/-- Does the response declare a JSON content type
(`contentType.includes("application/json")` after `|| ""`)? -/
def declaresJson (r : UpstreamResponse) : Bool :=
  jsIncludes (r.contentType.getD "") "application/json"

/-- `await response.text().catch(() => "")` (lines 49 and 88): a failing
body read is swallowed and yields the empty excerpt. -/
def bestEffortText (r : UpstreamResponse) : String :=
  match r.bodyText with
  | .ok t => t
  | .error _ => ""

/-- The data carried by the error the adapter raises on a non-2xx
response: which API base, the method, the endpoint path, the status code
and the body excerpt. -/
structure ApiError where
  api : String
  method : String
  endpoint : String
  status : Nat
  excerpt : String

/-- The thrown message (lines 50–52 and 89–91). -/
def apiErrorMessage (e : ApiError) : String :=
  e.api ++ " " ++ e.method ++ " " ++ e.endpoint ++ " failed ("
    ++ toString e.status ++ "): " ++ e.excerpt

/-- What an adapter call can raise: the normalized HTTP error, or an
uncaught failure of a success-path body read. -/
inductive AdapterFailure where
  | httpError (e : ApiError)
  | bodyReadFailure

/-- A successfully decoded payload. -/
inductive Payload where
  | json (v : JsVal)
  | text (s : String)

/-- Is the payload a decoded-JSON one? -/
def Payload.isJsonPayload : Payload → Bool
  | .json _ => true
  | .text _ => false

/-- `return await response.text()` on the success path (uncaught on
read failure). -/
def decodeAsText (r : UpstreamResponse) : Except AdapterFailure Payload :=
  match r.bodyText with
  | .ok t => .ok (.text t)
  | .error _ => .error .bodyReadFailure

/-- `haApiRequest` (ha-client.ts lines 27–63), as a function of the
response: non-2xx raises the normalized error; otherwise decode as JSON
when the content type declares JSON, else as text. -/
def haApiResult (method endpoint : String) (r : UpstreamResponse) :
    Except AdapterFailure Payload :=
  if !responseOk r then
    .error (.httpError
      { api := "HA API", method := method, endpoint := endpoint
        status := r.status, excerpt := bestEffortText r })
  else if declaresJson r then .ok (.json r.bodyJson)
  else decodeAsText r

/-- `supervisorApiRequest` (ha-client.ts lines 65–106): same shape, with
a `rawResponse` variant that forces text decoding on success. -/
def supervisorApiResult (method endpoint : String) (rawResponse : Bool)
    (r : UpstreamResponse) : Except AdapterFailure Payload :=
  if !responseOk r then
    .error (.httpError
      { api := "Supervisor API", method := method, endpoint := endpoint
        status := r.status, excerpt := bestEffortText r })
  else if rawResponse then decodeAsText r
  else if declaresJson r then .ok (.json r.bodyJson)
  else decodeAsText r

/-! ### Helper lemmas -/

theorem string_ne_of_head {a b : String} {x y : Char}
    (ha : a.data.head? = some x) (hb : b.data.head? = some y) (hxy : x ≠ y) :
    a ≠ b := by
  intro h
  rw [h, hb] at ha
  exact hxy (Option.some.inj ha).symm

theorem string_ne_empty_of_head {a : String} {x : Char}
    (ha : a.data.head? = some x) : a ≠ "" := by
  intro h
  rw [h] at ha
  have hnone : (none : Option Char) = some x := ha
  cases hnone

theorem takeWhile_append_stop {l r : List Char}
    (h : ∀ c ∈ l, c ≠ '.') :
    (l ++ '.' :: r).takeWhile (fun c => c != '.') = l := by
  induction l with
  | nil =>
      rw [List.nil_append, List.takeWhile_cons]
      simp
  | cons a t ih =>
      have ha : a ≠ '.' := h a (List.mem_cons_self a t)
      rw [List.cons_append, List.takeWhile_cons]
      rw [if_pos (by simpa using ha)]
      rw [ih (fun c hc => h c (List.mem_cons_of_mem a hc))]

theorem beq_symm_false {a b : String} (h : (a == b) = false) :
    (b == a) = false := by
  simp only [beq_eq_false_iff_ne] at h ⊢
  exact fun he => h he.symm

theorem lookup_eq_none_of_any_eq_false {m : List (String × JsVal)} {k : String}
    (h : m.any (fun p => p.1 == k) = false) : List.lookup k m = none := by
  induction m with
  | nil => rfl
  | cons p t ih =>
      obtain ⟨a, b⟩ := p
      rw [List.any_cons] at h
      rcases Bool.or_eq_false_iff.mp h with ⟨h1, h2⟩
      simp only [List.lookup, beq_symm_false h1]
      exact ih h2

theorem lookup_append_single_self (m : List (String × JsVal)) (k : String)
    (v : JsVal) (h : m.any (fun p => p.1 == k) = false) :
    List.lookup k (m ++ [(k, v)]) = some v := by
  induction m with
  | nil => simp [List.lookup]
  | cons p t ih =>
      obtain ⟨a, b⟩ := p
      rw [List.any_cons] at h
      rcases Bool.or_eq_false_iff.mp h with ⟨h1, h2⟩
      rw [List.cons_append]
      simp only [List.lookup, beq_symm_false h1]
      exact ih h2

theorem lookup_map_update_self (m : List (String × JsVal)) (k : String)
    (v : JsVal) (h : m.any (fun p => p.1 == k) = true) :
    List.lookup k (m.map (fun p => if p.1 == k then (k, v) else p))
      = some v := by
  induction m with
  | nil => cases h
  | cons p t ih =>
      obtain ⟨a, b⟩ := p
      rw [List.any_cons] at h
      by_cases h1 : (a == k) = true
      · simp only [List.map_cons, h1, if_true]
        simp [List.lookup]
      · have h1' : (a == k) = false := Bool.eq_false_iff.mpr h1
        have h2 : t.any (fun p => p.1 == k) = true := by
          rcases Bool.or_eq_true_iff.mp h with hl | hr
          · exact absurd hl h1
          · exact hr
        simp only [List.map_cons, h1', Bool.false_eq_true, if_false]
        simp only [List.lookup, beq_symm_false h1']
        exact ih h2

theorem lookup_setKey_self (m : List (String × JsVal)) (k : String)
    (v : JsVal) : List.lookup k (setKey m k v) = some v := by
  unfold setKey
  by_cases h : m.any (fun p => p.1 == k) = true
  · rw [if_pos h]; exact lookup_map_update_self m k v h
  · rw [if_neg h]
    exact lookup_append_single_self m k v (Bool.eq_false_iff.mpr h)

theorem lookup_setKey_other (m : List (String × JsVal)) {k k' : String}
    (v : JsVal) (hne : k' ≠ k) :
    List.lookup k' (setKey m k v) = List.lookup k' m := by
  have hbe : (k' == k) = false := beq_eq_false_iff_ne.mpr hne
  unfold setKey
  by_cases h : m.any (fun p => p.1 == k) = true
  · rw [if_pos h]
    clear h
    induction m with
    | nil => rfl
    | cons p t ih =>
        obtain ⟨a, b⟩ := p
        by_cases h1 : (a == k) = true
        · have ha : a = k := eq_of_beq h1
          simp only [List.map_cons, h1, if_true]
          simp only [List.lookup, ha, hbe]
          exact ih
        · have h1' : (a == k) = false := Bool.eq_false_iff.mpr h1
          simp only [List.map_cons, h1', Bool.false_eq_true, if_false]
          simp only [List.lookup]
          cases hak : (k' == a) with
          | true => rfl
          | false => exact ih
  · rw [if_neg h]
    clear h
    induction m with
    | nil => simp [List.lookup, hbe]
    | cons p t ih =>
        obtain ⟨a, b⟩ := p
        rw [List.cons_append]
        simp only [List.lookup]
        cases hak : (k' == a) with
        | true => rfl
        | false => exact ih

theorem objectAssign_cons (m : List (String × JsVal)) (p : String × JsVal)
    (t : List (String × JsVal)) :
    objectAssign m (p :: t) = objectAssign (setKey m p.1 p.2) t := rfl

theorem lookup_objectAssign_not_mem (d : List (String × JsVal)) {k : String}
    (hk : k ∉ d.map Prod.fst) (m : List (String × JsVal)) :
    List.lookup k (objectAssign m d) = List.lookup k m := by
  induction d generalizing m with
  | nil => rfl
  | cons p t ih =>
      obtain ⟨a, b⟩ := p
      rw [List.map_cons] at hk
      have hka : k ≠ a := fun he => hk (by rw [he]; exact List.mem_cons_self a _)
      have hkt : k ∉ t.map Prod.fst := fun hm => hk (List.mem_cons_of_mem a hm)
      rw [objectAssign_cons, ih hkt, lookup_setKey_other m b hka]

theorem lookup_objectAssign_mem (d : List (String × JsVal)) {k : String}
    {v : JsVal} (hnd : (d.map Prod.fst).Nodup) (hm : (k, v) ∈ d)
    (m : List (String × JsVal)) :
    List.lookup k (objectAssign m d) = some v := by
  induction d generalizing m with
  | nil => cases hm
  | cons p t ih =>
      obtain ⟨a, b⟩ := p
      rw [List.map_cons, List.nodup_cons] at hnd
      rcases List.mem_cons.mp hm with hh | ht
      · have hka : k = a := congrArg Prod.fst hh
        have hvb : v = b := congrArg Prod.snd hh
        subst hka; subst hvb
        have hkt : k ∉ t.map Prod.fst := hnd.1
        rw [objectAssign_cons, lookup_objectAssign_not_mem t hkt,
          lookup_setKey_self]
      · exact ih hnd.2 ht _

theorem lookup_addIfTruthy_other (m : List (String × JsVal)) {k k' : String}
    (v? : Option JsVal) (hne : k' ≠ k) :
    List.lookup k' (addIfTruthy m k v?) = List.lookup k' m := by
  cases v? with
  | none => rfl
  | some v =>
      simp only [addIfTruthy]
      by_cases h : jsTruthy v = true
      · rw [if_pos h, lookup_setKey_other m v hne]
      · rw [if_neg h]

theorem lookup_addIfTruthy_self (m : List (String × JsVal)) (k : String)
    (v? : Option JsVal) :
    List.lookup k (addIfTruthy m k v?)
      = match v? with
        | some v => if jsTruthy v then some v else List.lookup k m
        | none => List.lookup k m := by
  cases v? with
  | none => rfl
  | some v =>
      simp only [addIfTruthy]
      by_cases h : jsTruthy v = true
      · rw [if_pos h, if_pos h, lookup_setKey_self]
      · rw [if_neg h, if_neg h]

theorem lookup_bodyFromTarget (t : ServiceTarget) (k : String) :
    List.lookup k (bodyFromTarget (some t))
      = match targetField t k with
        | some v => if jsTruthy v then some v else none
        | none => none := by
  unfold bodyFromTarget targetField
  by_cases h1 : k = "entity_id"
  · subst h1
    rw [lookup_addIfTruthy_other _ _ (by decide),
      lookup_addIfTruthy_other _ _ (by decide),
      lookup_addIfTruthy_self]
    rw [if_pos rfl]
    cases t.entity_id with
    | none => rfl
    | some v =>
        by_cases h : jsTruthy v = true
        · simp [h]
        · simp [Bool.eq_false_iff.mp (Bool.not_eq_true _ ▸ h)]
  · by_cases h2 : k = "area_id"
    · subst h2
      rw [lookup_addIfTruthy_other _ _ (by decide), lookup_addIfTruthy_self,
        lookup_addIfTruthy_other _ _ (by decide)]
      rw [if_neg (by decide), if_pos rfl]
      cases t.area_id with
      | none => rfl
      | some v =>
          by_cases h : jsTruthy v = true
          · simp [h]
          · simp [h]
    · by_cases h3 : k = "device_id"
      · subst h3
        rw [lookup_addIfTruthy_self,
          lookup_addIfTruthy_other _ _ (by decide),
          lookup_addIfTruthy_other _ _ (by decide)]
        rw [if_neg (by decide), if_neg (by decide), if_pos rfl]
        cases t.device_id with
        | none => rfl
        | some v =>
            by_cases h : jsTruthy v = true
            · simp [h]
            · simp [h]
      · rw [lookup_addIfTruthy_other _ _ h3, lookup_addIfTruthy_other _ _ h2,
          lookup_addIfTruthy_other _ _ h1]
        rw [if_neg h1, if_neg h2, if_neg h3]
        rfl

/-! ### Claim theorems -/

/-- A small fixture: one light and one sensor. -/
def exStatesC1 : List EntityState :=
  [{ entity_id := "light.kitchen", state := "on", attributes := [] },
   { entity_id := "sensor.door", state := "open", attributes := [] }]

/-- Claim C1, counterexample: with `domain="light"` on a two-entity state
list containing one light, the header reports the filtered count (1), not
the unfiltered state-list length (2) as the claim asserts. -/
theorem C1_counterexample :
    haGetEntitiesHeader exStatesC1 (some "light") = "Found 1 light entities"
    ∧ exStatesC1.length = 2
    ∧ haGetEntitiesHeader exStatesC1 (some "light")
        ≠ "Found " ++ toString exStatesC1.length ++ " light entities" := by
  refine ⟨by decide, by decide, by decide⟩

/-- Claim C1 (amended): for a non-empty separator-free domain `d`,
`get_entities(domain=d)` returns only entities whose identifier prefix up
to the first separator equals `d`, and the count reported in the header is
the FILTERED list's length; the unfiltered state-list length is reported
only when no domain is given. -/
theorem C1_amended (states : List EntityState) (d : String) (limit : Int)
    (hne : d ≠ "") (hnd : ∀ c ∈ d.data, c ≠ '.') :
    (∀ s ∈ limitedStates states (some d) limit, entityDomain s.entity_id = d)
    ∧ haGetEntitiesHeaderCount states (some d)
        = (filteredStates states (some d)).length
    ∧ haGetEntitiesHeaderCount states none = states.length
    ∧ haGetEntitiesHeader states (some d)
        = "Found " ++ toString (filteredStates states (some d)).length ++ " "
            ++ d ++ " entities" := by
  refine ⟨?_, ?_, rfl, ?_⟩
  · intro s hs
    have hs' : s ∈ filteredStates states (some d) := by
      unfold limitedStates jsSliceTo at hs
      split at hs
      · exact List.mem_of_mem_take hs
      · exact List.mem_of_mem_take hs
    simp only [filteredStates] at hs'
    rw [if_neg hne] at hs'
    obtain ⟨-, hpref⟩ := List.mem_filter.mp hs'
    unfold jsStartsWith at hpref
    obtain ⟨rest, hrest⟩ := List.isPrefixOf_iff_prefix.mp hpref
    have hdot : (d ++ ".").data = d.data ++ ['.'] := rfl
    have hdata : s.entity_id.data = d.data ++ '.' :: rest := by
      rw [← hrest, hdot, List.append_assoc, List.singleton_append]
    unfold entityDomain
    rw [hdata, takeWhile_append_stop hnd]
  · simp only [haGetEntitiesHeaderCount]
    rw [if_neg hne]
  · simp only [haGetEntitiesHeader]
    rw [if_neg hne]

/-- Claim C1, witness for the amended theorem at `domain="light"` on the
fixture. -/
theorem C1_witness :
    haGetEntitiesHeaderCount exStatesC1 (some "light")
        = (filteredStates exStatesC1 (some "light")).length
    ∧ haGetEntitiesHeader exStatesC1 (some "light")
        = "Found "
            ++ toString (filteredStates exStatesC1 (some "light")).length
            ++ " " ++ "light" ++ " entities" := by
  have h := C1_amended exStatesC1 "light" 200 (by decide) (by decide)
  exact ⟨h.2.1, h.2.2.2⟩

/-- Claim C2, counterexample: the claim quantifies over every numeric
limit; at `limit = -1` JS `slice(0, -1)` drops only the last element, so
two entities yield one line, and one line is not "at most -1" lines. -/
theorem C2_counterexample :
    (haGetEntitiesLines exStatesC1 none (-1)).length = 1
    ∧ ¬ (((haGetEntitiesLines exStatesC1 none (-1)).length : Int) ≤ -1) := by
  refine ⟨by decide, by decide⟩

/-- Claim C2 (amended): for every NON-NEGATIVE limit `n`,
`get_entities(limit=n)` returns at most `n` lines, and the
`(showing first n)` annotation appears iff the filtered count exceeds
`n`. -/
theorem C2_amended (states : List EntityState) (domain : Option String)
    (n : Nat) :
    (haGetEntitiesLines states domain (n : Int)).length ≤ n
    ∧ haGetEntitiesShowing states domain (n : Int)
        = (if n < (filteredStates states domain).length
           then " (showing first " ++ toString n ++ ")" else "")
    ∧ (haGetEntitiesShowing states domain (n : Int) ≠ ""
        ↔ n < (filteredStates states domain).length) := by
  have hlim : limitedStates states domain (n : Int)
      = (filteredStates states domain).take n := by
    unfold limitedStates jsSliceTo
    rw [if_neg (by exact not_lt.mpr (Int.natCast_nonneg n)), Int.toNat_natCast]
  have hlen : (limitedStates states domain (n : Int)).length
      = min n (filteredStates states domain).length := by
    rw [hlim, List.length_take]
  have hshow : haGetEntitiesShowing states domain (n : Int)
      = (if n < (filteredStates states domain).length
         then " (showing first " ++ toString n ++ ")" else "") := by
    unfold haGetEntitiesShowing
    rw [hlen]
    by_cases h : n < (filteredStates states domain).length
    · rw [min_eq_left h.le, if_pos h]
    · rw [min_eq_right (le_of_not_lt h), if_neg (lt_irrefl _), if_neg h]
  refine ⟨?_, hshow, ?_⟩
  · unfold haGetEntitiesLines
    rw [List.length_map, hlen]
    exact min_le_left _ _
  · rw [hshow]
    constructor
    · intro hne'
      by_contra hlt
      rw [if_neg hlt] at hne'
      exact hne' rfl
    · intro hlt
      rw [if_pos hlt]
      exact string_ne_empty_of_head (x := ' ') rfl

/-- Claim C4: `restart(confirm=false)` issues no upstream call and
returns the explanatory cancellation text; `restart(confirm=true)` issues
exactly one upstream call, a POST to the restart service endpoint. -/
theorem C4_restart :
    haRestart false = { calls := [], text := restartCancelText }
    ∧ (haRestart false).calls.length = 0
    ∧ haRestart true =
        { calls := [{ method := "POST"
                      path := "/services/homeassistant/restart"
                      body := none }]
          text := restartInitiatedText }
    ∧ (haRestart true).calls.length = 1 :=
  ⟨rfl, rfl, rfl, rfl⟩

/-- Claim C8: the history query start boundary is exactly the invocation
time minus `hours` × 3,600,000 milliseconds — the factored constant
`60 * 60 * 1000` equals 3,600,000, the subtraction is exact, and the
offset is a whole number of seconds. -/
theorem C8_history_start (t h : Int) :
    haGetHistoryStartMillis t h = t - h * 3600000
    ∧ t - haGetHistoryStartMillis t h = h * 3600000
    ∧ (1000 : Int) ∣ t - haGetHistoryStartMillis t h := by
  refine ⟨by unfold haGetHistoryStartMillis; ring,
          by unfold haGetHistoryStartMillis; ring,
          ⟨h * 3600, by unfold haGetHistoryStartMillis; ring⟩⟩

/-- Claim C9: `render_template` embeds the upstream-rendered text
verbatim after a fixed header independent of the input — dropping the
18-character header recovers exactly the rendered text, empty or not,
so the operation is a round-trip of the upstream rendering with no local
post-processing. -/
theorem C9_render_roundtrip (r : String) :
    haRenderTemplateText r = "Template result:\n\n" ++ r
    ∧ (haRenderTemplateText r).data
        = templateResultPrefix.data ++ r.data
    ∧ (haRenderTemplateText r).data.drop templateResultPrefix.data.length
        = r.data := by
  refine ⟨rfl, rfl, ?_⟩
  have : (haRenderTemplateText r).data = templateResultPrefix.data ++ r.data :=
    rfl
  rw [this, List.drop_left]

/-- Claim C3, code bug evaluated at the failing input `toString`:
`toString` is not a declared key of the reload table, yet JS bracket
access finds the inherited truthy `Object.prototype.toString`, so the
handler issues an upstream POST and reports the success confirmation
instead of the handled key-listing response — contradicting the claim
and the tool's own description, which enumerates the supported domains.
For ordinary strings the intended behavior does hold: an undeclared
non-prototype name (`pizza`) issues no call and lists the valid keys,
and a declared key (`automation`) posts to its mapped endpoint. -/
theorem C3_code_bug :
    List.lookup "toString" RELOAD_MAP = none
    ∧ "toString" ∉ RELOAD_MAP.map Prod.fst
    ∧ (haReloadConfig "toString").calls.length = 1
    ∧ (haReloadConfig "toString").text = reloadSuccessText "toString"
    ∧ (haReloadConfig "toString").text ≠ reloadUnknownText "toString"
    ∧ haReloadConfig "pizza" = { calls := [], text := reloadUnknownText "pizza" }
    ∧ haReloadConfig "automation" =
        { calls := [{ method := "POST"
                      path := "/services/" ++ "automation/reload"
                      body := none }]
          text := reloadSuccessText "automation" } := by
  refine ⟨rfl, by decide, rfl, rfl, ?_, rfl, rfl⟩
  have h : (haReloadConfig "toString").text = reloadSuccessText "toString" := rfl
  rw [h]
  exact string_ne_of_head (x := 'R') (y := 'U') rfl rfl (by decide)

/-- Claim C5, counterexample: `target` present with key set containing
`entity_id` (value the empty string) and `data` present with the disjoint
empty key set, yet the merged body does not contain `entity_id` — the
falsy target field is dropped, contradicting the claim as stated. -/
theorem C5_counterexample :
    serviceBody (some { entity_id := some (JsVal.str "") }) (some []) = []
    ∧ List.lookup "entity_id"
        (serviceBody (some { entity_id := some (JsVal.str "") }) (some []))
        = none :=
  ⟨rfl, rfl⟩

/-- Claim C5 (amended): when `target` and `data` are both present, the
merged body contains every key of `data` with `data`'s value (so on any
overlap the later `Object.assign` merge wins), and every `target` field
that is present with a TRUTHY value and not overridden by `data` keeps
its target value; falsy target fields are dropped. -/
theorem C5_amended (t : ServiceTarget) (d : List (String × JsVal))
    (hnd : (d.map Prod.fst).Nodup) :
    (∀ k v, (k, v) ∈ d →
        List.lookup k (serviceBody (some t) (some d)) = some v)
    ∧ (∀ k v, targetField t k = some v → jsTruthy v = true →
        k ∉ d.map Prod.fst →
        List.lookup k (serviceBody (some t) (some d)) = some v) := by
  constructor
  · intro k v hm
    unfold serviceBody
    exact lookup_objectAssign_mem d hnd hm _
  · intro k v hf htr hnm
    unfold serviceBody
    rw [lookup_objectAssign_not_mem d hnm, lookup_bodyFromTarget]
    simp [hf, htr]

/-- Claim C5, witness: a truthy `entity_id` target plus a disjoint data
key both end up in the body. -/
theorem C5_witness :
    List.lookup "brightness_pct"
      (serviceBody (some { entity_id := some (JsVal.str "light.kitchen") })
        (some [("brightness_pct", JsVal.num 80)])) = some (JsVal.num 80)
    ∧ List.lookup "entity_id"
        (serviceBody (some { entity_id := some (JsVal.str "light.kitchen") })
          (some [("brightness_pct", JsVal.num 80)]))
        = some (JsVal.str "light.kitchen") := by
  have h := C5_amended { entity_id := some (JsVal.str "light.kitchen") }
    [("brightness_pct", JsVal.num 80)] (by simp)
  exact ⟨h.1 "brightness_pct" (JsVal.num 80) (by simp),
         h.2 "entity_id" (JsVal.str "light.kitchen") rfl rfl (by simp)⟩

/-- Claim C10: a target field whose value is falsy (e.g. the empty
string) contributes nothing to the merged body, and the POST carries no
body at all (body `undefined`) exactly when the merged body has no
keys. -/
theorem C10_call_service_body :
    (∀ (t : ServiceTarget) (d : List (String × JsVal)) (k : String)
        (v : JsVal),
        targetField t k = some v → jsTruthy v = false → k ∉ d.map Prod.fst →
        List.lookup k (serviceBody (some t) (some d)) = none)
    ∧ (∀ (domain service : String) (target : Option ServiceTarget)
        (data : Option (List (String × JsVal))),
        ((haCallServiceRequest domain service target data).body = none
          ↔ serviceBody target data = [])) := by
  constructor
  · intro t d k v hf htr hnm
    unfold serviceBody
    rw [lookup_objectAssign_not_mem d hnm, lookup_bodyFromTarget]
    simp [hf, htr]
  · intro dom svc target data
    have hb : (haCallServiceRequest dom svc target data).body
        = if (serviceBody target data).length > 0
          then some (serviceBody target data) else none := rfl
    rw [hb]
    constructor
    · intro hnone
      by_contra hne
      have hpos : (serviceBody target data).length > 0 :=
        List.length_pos.mpr hne
      rw [if_pos hpos] at hnone
      cases hnone
    · intro he
      rw [he]
      rfl

/-- Claim C10, witness: a falsy `entity_id` is absent from the body, and
an empty merged body makes the request body `undefined`. -/
theorem C10_witness :
    List.lookup "entity_id"
      (serviceBody (some { entity_id := some (JsVal.str "") })
        (some [("x", JsVal.num 1)])) = none
    ∧ ((haCallServiceRequest "light" "turn_on"
          (some { entity_id := some (JsVal.str "") }) (some [])).body = none
        ↔ serviceBody (some { entity_id := some (JsVal.str "") }) (some [])
            = []) :=
  ⟨C10_call_service_body.1 { entity_id := some (JsVal.str "") }
      [("x", JsVal.num 1)] "entity_id" (JsVal.str "") rfl rfl (by decide),
   C10_call_service_body.2 "light" "turn_on"
      (some { entity_id := some (JsVal.str "") }) (some [])⟩

/-- Claim C7, counterexample: the claim quantifies over every numeric
argument; at `lines = 0` JS `slice(-0)` is `slice(0)` and returns EVERY
line, not the last 0 entries. -/
theorem C7_counterexample :
    haGetLogsSelected "line one\nline two" 0 = ["line one", "line two"]
    ∧ haGetLogsSelected "line one\nline two" 0 ≠ ([] : List String) := by
  refine ⟨by decide, by decide⟩

/-- Claim C7 (amended): for every POSITIVE `n`, `get_logs(lines=n)` splits
the raw log text on newlines and returns exactly the last `n` entries of
the line list (all entries when fewer than `n` exist). -/
theorem C7_amended (logs : String) (n : Nat) (h : 0 < n) :
    haGetLogsSelected logs (n : Int)
      = (jsSplit logs).drop ((jsSplit logs).length - n) := by
  unfold haGetLogsSelected jsSliceFrom
  rw [if_pos (by omega : -(n : Int) < 0)]
  congr 1
  omega

/-- Claim C7, witness for the amended theorem at `lines = 2` on a
three-line log. -/
theorem C7_witness :
    (0 : Nat) < 2
    ∧ haGetLogsSelected "alpha\nbeta\ngamma" ((2 : Nat) : Int)
        = (jsSplit "alpha\nbeta\ngamma").drop
            ((jsSplit "alpha\nbeta\ngamma").length - 2) :=
  ⟨by decide, C7_amended "alpha\nbeta\ngamma" 2 (by decide)⟩

/-- Claim C6, counterexample: a supervisor call with `rawResponse: true`
(used by `ha_get_logs`) and a 2xx response declaring a JSON content type
returns the body as raw text, not decoded JSON as the claim requires of
every adapter call. -/
theorem C6_counterexample :
    supervisorApiResult "GET" "/core/logs" true
        { status := 200, contentType := some "application/json"
          bodyText := .ok "raw body", bodyJson := JsVal.null }
      = .ok (.text "raw body")
    ∧ declaresJson
        { status := 200, contentType := some "application/json"
          bodyText := .ok "raw body", bodyJson := JsVal.null } = true
    ∧ (Payload.text "raw body").isJsonPayload = false :=
  ⟨rfl, rfl, rfl⟩

/-- Claim C6 (amended): on a non-2xx status both adapters raise the
normalized error carrying API base, method, path, status and best-effort
body excerpt (a failing body read is swallowed into an empty excerpt);
on a 2xx status the payload is decoded JSON when the response declares a
JSON content type and raw text otherwise — EXCEPT that the supervisor
variant with `rawResponse = true` returns raw text regardless of the
declared content type. -/
theorem C6_amended (method endpoint : String) (raw : Bool)
    (r : UpstreamResponse) :
    (responseOk r = false →
        haApiResult method endpoint r = .error (.httpError
          { api := "HA API", method := method, endpoint := endpoint
            status := r.status, excerpt := bestEffortText r })
      ∧ supervisorApiResult method endpoint raw r = .error (.httpError
          { api := "Supervisor API", method := method, endpoint := endpoint
            status := r.status, excerpt := bestEffortText r }))
    ∧ (responseOk r = true → declaresJson r = true →
        haApiResult method endpoint r = .ok (.json r.bodyJson)
      ∧ supervisorApiResult method endpoint false r = .ok (.json r.bodyJson))
    ∧ (responseOk r = true → declaresJson r = false →
        haApiResult method endpoint r = decodeAsText r
      ∧ supervisorApiResult method endpoint false r = decodeAsText r)
    ∧ (responseOk r = true →
        supervisorApiResult method endpoint true r = decodeAsText r)
    ∧ (r.bodyText = .error () → bestEffortText r = "") := by
  refine ⟨?_, ?_, ?_, ?_, ?_⟩
  · intro h
    constructor
    · unfold haApiResult
      rw [h]
      rfl
    · unfold supervisorApiResult
      rw [h]
      rfl
  · intro hok hjson
    constructor
    · unfold haApiResult
      rw [hok, hjson]
      rfl
    · unfold supervisorApiResult
      rw [hok, hjson]
      rfl
  · intro hok hjson
    constructor
    · unfold haApiResult
      rw [hok, hjson]
      rfl
    · unfold supervisorApiResult
      rw [hok, hjson]
      rfl
  · intro hok
    unfold supervisorApiResult
    rw [hok]
    rfl
  · intro h
    unfold bestEffortText
    rw [h]

/-- Claim C6, witness: a 404 with a failing body read yields the
normalized error with an empty excerpt on both adapters. -/
theorem C6_witness :
    haApiResult "GET" "/states"
        { status := 404, contentType := none
          bodyText := .error (), bodyJson := JsVal.null }
      = .error (.httpError
          { api := "HA API", method := "GET", endpoint := "/states"
            status := 404, excerpt := "" })
    ∧ supervisorApiResult "GET" "/states" false
        { status := 404, contentType := none
          bodyText := .error (), bodyJson := JsVal.null }
      = .error (.httpError
          { api := "Supervisor API", method := "GET", endpoint := "/states"
            status := 404, excerpt := "" }) :=
  (C6_amended "GET" "/states" false
    { status := 404, contentType := none
      bodyText := .error (), bodyJson := JsVal.null }).1 rfl
